import Mathlib

/-!
Shallow embedding of the raft3d repository core (github.com/devadigapratham/raft3d):
the deterministic state machine in `raft/fsm.go`, the entity models in
`api/models`, the key-value/snapshot store in `raft/store.go` and the
leader-forwarding transport in `raft/transport.go`.

Modelling conventions:
* Go `map[string]*T` values are association lists `List (String × T)` with
  the usual lookup/upsert operations (`mapGet`, `mapSet`).  Go map iteration
  order is unspecified; every iteration performed by the embedded code
  (capacity summation, snapshot-directory scan) is order-independent over the
  reachable states, so list order is immaterial to the proved statements.
* Go `int` is modelled as unbounded `Int`; no claim under study exercises
  64-bit wrap-around.
* In-place mutation through map-stored pointers is modelled by re-storing the
  updated record under the same key.
* `fmt.Errorf` error values are modelled by an inductive error type carrying
  the formatted arguments, together with `renderError` reproducing the exact
  Go format string.
-/

namespace Raft3D

/-- Device record, file api/models/printer.go (file not included in the
source snapshot).  Modelled from the spec: a Device has an `id`, a
`manufacturer` and a `model label`; only the `ID` field is ever read by the
state machine. -/
structure Printer where
  ID : String
  Company : String
  Model : String
deriving DecidableEq, Repr

/-- api/models/filament.go.  The Go field `Type` is called `FType` here
because `Type` is reserved in Lean; the state machine never reads it. -/
structure Filament where
  ID : String
  FType : String
  Color : String
  TotalWeightInGrams : Int
  RemainingWeightInGrams : Int
deriving DecidableEq, Repr

/-- api/models/printjob.go. -/
structure PrintJob where
  ID : String
  PrinterID : String
  FilamentID : String
  Filepath : String
  PrintWeightInGrams : Int
  Status : String
deriving DecidableEq, Repr

/-- api/models/models.go, struct Command.  The Go field `Type CommandType`
is `ctype` here (`Type` is reserved in Lean); `CommandType` is a string type
with constants ADD_PRINTER, ADD_FILAMENT, ADD_PRINT_JOB, UPDATE_PRINT_JOB. -/
structure Command where
  ctype : String
  printer : Option Printer
  filament : Option Filament
  printJob : Option PrintJob
  jobID : String
  newStatus : String
deriving DecidableEq, Repr

/-- Lookup in a Go `map[string]T` modelled as an association list. -/
def mapGet {α : Type} : List (String × α) → String → Option α
  | [], _ => none
  | (k', v) :: rest, k => if k' = k then some v else mapGet rest k

/-- Assignment `m[k] = v` in a Go map: replace in place if present,
otherwise add a new entry (placed at the end of the list). -/
def mapSet {α : Type} : List (String × α) → String → α → List (String × α)
  | [], k, v => [(k, v)]
  | (k', v') :: rest, k, v =>
      if k' = k then (k, v) :: rest else (k', v') :: mapSet rest k v

/-- Errors produced by FSM.Apply (raft/fsm.go) and models.ValidateStatusChange
(api/models/models.go), carrying the arguments that Go interpolates with
fmt.Errorf / errors.New. -/
inductive FsmError where
  | printerNil
  | filamentNil
  | printJobNil
  | printerNotFound (id : String)
  | filamentNotFound (id : String)
  | insufficientFilament (available required : Int)
  | jobNotFound (id : String)
  | badTransition (msg : String)
  | unknownCommand (t : String)
deriving DecidableEq, Repr

/-- Decimal rendering of a Go int by fmt's `%d` verb. -/
def goNatDigits (n : Nat) : List Char :=
  if h : n < 10 then [Char.ofNat (48 + n)]
  else goNatDigits (n / 10) ++ [Char.ofNat (48 + n % 10)]
decreasing_by
  exact Nat.div_lt_self (by omega) (by omega)

/-- fmt.Sprintf with verb `%d` applied to a Go int. -/
def goIntToString (i : Int) : String :=
  if i < 0 then String.mk ('-' :: goNatDigits i.natAbs)
  else String.mk (goNatDigits i.toNat)

/-- The Go error strings built at each fmt.Errorf / errors.New call site of
raft/fsm.go and api/models/models.go. -/
def renderError : FsmError → String
  | .printerNil => "printer is nil"
  | .filamentNil => "filament is nil"
  | .printJobNil => "print job is nil"
  | .printerNotFound id => "printer with ID " ++ id ++ " does not exist"
  | .filamentNotFound id => "filament with ID " ++ id ++ " does not exist"
  | .insufficientFilament a r =>
      "not enough filament remaining. Available: " ++ goIntToString a ++
        " g, Required: " ++ goIntToString r ++ " g"
  | .jobNotFound id => "print job with ID " ++ id ++ " does not exist"
  | .badTransition msg => msg
  | .unknownCommand t => "unknown command type: " ++ t

/-- models.ValidateStatusChange (api/models/models.go): returns the
errors.New message on rejection, none on acceptance. -/
def ValidateStatusChange (currentStatus newStatus : String) : Option String :=
  if currentStatus = "Queued" then
    if newStatus ≠ "Running" ∧ newStatus ≠ "Canceled" then
      some "a job can only transition from Queued to Running or Canceled"
    else none
  else if currentStatus = "Running" then
    if newStatus ≠ "Done" ∧ newStatus ≠ "Canceled" then
      some "a job can only transition from Running to Done or Canceled"
    else none
  else some "invalid status transition"

/-- The three entity maps held by the FSM (raft/fsm.go, struct FSM). -/
structure FSMState where
  printers : List (String × Printer)
  filaments : List (String × Filament)
  printJobs : List (String × PrintJob)
deriving DecidableEq, Repr

/-- NewFSM (raft/fsm.go): all three maps empty. -/
def NewFSM : FSMState := ⟨[], [], []⟩

/-- The availableWeight loop of the ADD_PRINT_JOB case (raft/fsm.go): start
from the filament's remaining weight and subtract the weight of every stored
job against the same filament whose status is Queued or Running. -/
def availableWeight (filament : Filament) (printJobs : List (String × PrintJob))
    (filamentID : String) : Int :=
  printJobs.foldl
    (fun acc kv =>
      if kv.2.FilamentID = filamentID ∧ (kv.2.Status = "Queued" ∨ kv.2.Status = "Running")
      then acc - kv.2.PrintWeightInGrams else acc)
    filament.RemainingWeightInGrams

/-- Sum of the requested weights of the stored Queued/Running jobs against a
filament (the quantity the specification calls the reserved capacity). -/
def reservedWeight (printJobs : List (String × PrintJob)) (filamentID : String) : Int :=
  match printJobs with
  | [] => 0
  | (_, j) :: rest =>
      (if j.FilamentID = filamentID ∧ (j.Status = "Queued" ∨ j.Status = "Running")
       then j.PrintWeightInGrams else 0) + reservedWeight rest filamentID

/-- FSM.Apply (raft/fsm.go) after the JSON unmarshal of the log entry: given
the pre-state and the decoded command, produce the post-state together with
the returned error (nil = none).  The post-state is returned even on the
error paths because the Go code mutates the shared maps in place before some
of its error returns (see the UPDATE_PRINT_JOB / Running→Done branch). -/
def applyCmd (s : FSMState) (cmd : Command) : FSMState × Option FsmError :=
  if cmd.ctype = "ADD_PRINTER" then
    match cmd.printer with
    | none => (s, some .printerNil)
    | some p => ({ s with printers := mapSet s.printers p.ID p }, none)
  else if cmd.ctype = "ADD_FILAMENT" then
    match cmd.filament with
    | none => (s, some .filamentNil)
    | some fil => ({ s with filaments := mapSet s.filaments fil.ID fil }, none)
  else if cmd.ctype = "ADD_PRINT_JOB" then
    match cmd.printJob with
    | none => (s, some .printJobNil)
    | some j =>
      match mapGet s.printers j.PrinterID with
      | none => (s, some (.printerNotFound j.PrinterID))
      | some _ =>
        match mapGet s.filaments j.FilamentID with
        | none => (s, some (.filamentNotFound j.FilamentID))
        | some filament =>
          let avail := availableWeight filament s.printJobs j.FilamentID
          if j.PrintWeightInGrams > avail then
            (s, some (.insufficientFilament avail j.PrintWeightInGrams))
          else
            ({ s with printJobs := mapSet s.printJobs j.ID { j with Status := "Queued" } },
              none)
  else if cmd.ctype = "UPDATE_PRINT_JOB" then
    match mapGet s.printJobs cmd.jobID with
    | none => (s, some (.jobNotFound cmd.jobID))
    | some job =>
      match ValidateStatusChange job.Status cmd.newStatus with
      | some msg => (s, some (.badTransition msg))
      | none =>
        let oldStatus := job.Status
        let job1 := { job with Status := cmd.newStatus }
        let s1 := { s with printJobs := mapSet s.printJobs cmd.jobID job1 }
        if oldStatus = "Running" ∧ cmd.newStatus = "Done" then
          match mapGet s1.filaments job1.FilamentID with
          | none => (s1, some (.filamentNotFound job1.FilamentID))
          | some filament =>
            let nw := filament.RemainingWeightInGrams - job1.PrintWeightInGrams
            let nw' := if nw < 0 then 0 else nw
            ({ s1 with
                filaments := mapSet s1.filaments job1.FilamentID
                  { filament with RemainingWeightInGrams := nw' } }, none)
        else (s1, none)
  else (s, some (.unknownCommand cmd.ctype))

/-- Folding a whole command list through FSM.Apply, starting anywhere. -/
def applyAll (s : FSMState) (cmds : List Command) : FSMState :=
  cmds.foldl (fun st c => (applyCmd st c).1) s

/-! ### Snapshot and Restore (raft/fsm.go) -/

/-- struct fsmSnapshot (raft/fsm.go): the deep-copied entity maps held
between FSM.Snapshot and fsmSnapshot.Persist. -/
structure FsmSnapshot where
  printers : List (String × Printer)
  filaments : List (String × Filament)
  printJobs : List (String × PrintJob)
deriving DecidableEq, Repr

/-- FSM.Snapshot (raft/fsm.go): a deep copy of the three maps (value copy in
this embedding). -/
def FSMState.snapshot (s : FSMState) : FsmSnapshot :=
  ⟨s.printers, s.filaments, s.printJobs⟩

/-- A self-describing structured-text document, the image of Go's
encoding/json value space needed here. -/
inductive GoJson where
  | null
  | str (s : String)
  | num (n : Int)
  | arr (elems : List GoJson)
  | obj (fields : List (String × GoJson))

/-- fsmSnapshot.Persist (raft/fsm.go) writes `json.NewEncoder(sink).Encode(s)`
to the sink.  Go's encoding/json marshals a struct by emitting one object
field per *exported* (capitalized) struct field; the three fields of
fsmSnapshot — `printers`, `filaments`, `printJobs` — are all unexported, so
the encoder emits an object with no fields for every snapshot value. -/
def FsmSnapshot.persist (_s : FsmSnapshot) : GoJson :=
  GoJson.obj []

/-- `json.NewDecoder(rc).Decode(&snapshot)` with target type fsmSnapshot
(FSM.Restore, raft/fsm.go): a JSON object decodes field-by-field into the
matching exported struct fields, ignoring keys without a match; fsmSnapshot
has no exported fields, so every key is ignored and the decoded value keeps
the zero value of each field (nil maps).  A non-object document is a decode
type error. -/
def FsmSnapshot.decode : GoJson → Except String FsmSnapshot
  | .obj _ => .ok ⟨[], [], []⟩
  | _ => .error "json: cannot unmarshal value into Go value of type raft.fsmSnapshot"

/-- FSM.Restore (raft/fsm.go): decode the snapshot document; on success
replace all three maps, on failure leave the state untouched and propagate
the error. -/
def FSMState.restore (_s : FSMState) (doc : GoJson) : Except String FSMState :=
  match FsmSnapshot.decode doc with
  | .error e => .error e
  | .ok snap => .ok ⟨snap.printers, snap.filaments, snap.printJobs⟩

/-- Order-independent equality of two maps: same lookup result at every key. -/
def mapEquiv {α : Type} (m₁ m₂ : List (String × α)) : Prop :=
  ∀ k, mapGet m₁ k = mapGet m₂ k

/-! ### Leader-forwarding transport (raft/transport.go) -/

/-- fmt.Sscanf with verb `%d`: skip leading white space, accept an optional
sign followed by at least one decimal digit, ignore any remaining input. -/
def goSscanfInt (s : String) : Option Int :=
  let cs := s.data.dropWhile (fun c => c.isWhitespace)
  let neg : Bool := cs.head? = some '-'
  let body := if cs.head? = some '-' ∨ cs.head? = some '+' then cs.tail else cs
  let ds := body.takeWhile (fun c => c.isDigit)
  if ds.isEmpty then none
  else
    let n : Nat := ds.foldl (fun a c => a * 10 + (c.toNat - 48)) 0
    some (if neg then -(n : Int) else (n : Int))

/-- Outcome of Transport.ForwardToLeader (raft/transport.go), up to the point
where a network request would be issued.  `request` records that an HTTP
request was issued with the given method and URL; the earlier constructors
are the returns (or the runtime panic) that happen before any network
traffic. -/
inductive ForwardResult where
  | handleLocally
  | noLeader
  | slicePanic
  | portParseError
  | request (method url : String)
deriving DecidableEq, Repr

/-- Transport.ForwardToLeader (raft/transport.go): the node's
`Leader()` / `LeaderAddress()` substrate queries are passed in as values.
`leaderAddr[len(leaderAddr)-4:]` panics when the address is shorter than
four bytes (negative slice index), modelled by `slicePanic`. -/
def ForwardToLeader (isLeader : Bool) (leaderAddr : String)
    (method path : String) : ForwardResult :=
  if isLeader then .handleLocally
  else if leaderAddr = "" then .noLeader
  else if leaderAddr.length < 4 then .slicePanic
  else
    match goSscanfInt (leaderAddr.drop (leaderAddr.length - 4)) with
    | none => .portParseError
    | some leaderPort =>
        let httpPort : Int := 8000
        let raftPort : Int := 7000
        let leaderHTTPPort := httpPort + (leaderPort - raftPort)
        let leaderHTTPAddr := "http://localhost:" ++ goIntToString leaderHTTPPort
        .request method (leaderHTTPAddr ++ path)

/-! ### Key-value / snapshot store (raft/store.go) -/

/-- The error values surfaced by Store.Get / Store.LoadSnapshot
(raft/store.go): the os.ErrNotExist sentinel returned by the in-memory
branch, and the fs.PathError wrapping ENOENT that os.ReadFile returns for a
missing file.  os.IsNotExist reports true for both. -/
inductive GoError where
  | errNotExist
  | pathErrorNotExist (path : String)
deriving DecidableEq, Repr

/-- os.IsNotExist restricted to the errors that arise in this store. -/
def os_IsNotExist : GoError → Bool
  | .errNotExist => true
  | .pathErrorNotExist _ => true

/-- struct Store (raft/store.go).  When `path = ""` the contents list is the
`inMemory` map; otherwise it is the set of files of the store directory
(file name ↦ file bytes), which the Store owns exclusively (spec §5). -/
structure Store where
  path : String
  contents : List (String × String)
deriving DecidableEq, Repr

/-- NewStore (raft/store.go): fresh empty backing in either mode. -/
def NewStore (path : String) : Store := ⟨path, []⟩

/-- filepath.Join of the store directory and a file name. -/
def filepathJoin (dir name : String) : String := dir ++ "/" ++ name

/-- Store.Set (raft/store.go): in-memory branch assigns the map key;
file branch writes the file named `key` (os.WriteFile creates or
truncates). -/
def Store.set (st : Store) (key val : String) : Store :=
  if st.path = "" then { st with contents := mapSet st.contents key val }
  else { st with contents := mapSet st.contents key val }

/-- Store.Get (raft/store.go): in-memory branch returns os.ErrNotExist on a
missing key; file branch returns os.ReadFile's PathError on a missing
file. -/
def Store.get (st : Store) (key : String) : Except GoError String :=
  if st.path = "" then
    match mapGet st.contents key with
    | none => .error .errNotExist
    | some v => .ok v
  else
    match mapGet st.contents key with
    | none => .error (.pathErrorNotExist (filepathJoin st.path key))
    | some v => .ok v

/-- The snapshot file name `fmt.Sprintf("snapshot-%d", time.Now().Unix())`
(Store.StoreSnapshot, raft/store.go). -/
def snapName (t : Int) : String := "snapshot-" ++ goIntToString t

/-- Store.StoreSnapshot (raft/store.go): the in-memory branch overwrites the
fixed key "snapshot"; the file branch writes a file whose name carries the
current Unix timestamp, passed here as the explicit argument `now`. -/
def Store.storeSnapshot (st : Store) (data : String) (now : Int) : Store :=
  if st.path = "" then { st with contents := mapSet st.contents "snapshot" data }
  else { st with contents := mapSet st.contents (snapName now) data }

/-- The per-file test of the LoadSnapshot directory scan (raft/store.go):
`len(name) > 9 && name[:9] == "snapshot-"`, then
`fmt.Sscanf(name, "snapshot-%d", &timestamp)` — the literal prefix is
already matched, so the verb scans the remainder of the name. -/
def parseSnapName (name : String) : Option Int :=
  if name.length > 9 ∧ name.data.take 9 = "snapshot-".data
  then goSscanfInt (String.mk (name.data.drop 9))
  else none

/-- The scan loop of Store.LoadSnapshot (raft/store.go): running maximum of
parsed timestamps, strict comparison, initial value (0, "").  os.ReadDir
yields the files sorted by name; the fold's result does not depend on the
iteration order in any state this development evaluates it in, because
distinct stored snapshot files carry distinct parsed timestamps. -/
def pickLatestStep (acc : Int × String) (kv : String × String) : Int × String :=
  match parseSnapName kv.1 with
  | none => acc
  | some ts => if ts > acc.1 then (ts, kv.1) else acc

def pickLatest (files : List (String × String)) : Int × String :=
  files.foldl pickLatestStep (0, "")

/-- Store.LoadSnapshot (raft/store.go). -/
def Store.loadSnapshot (st : Store) : Except GoError String :=
  if st.path = "" then
    match mapGet st.contents "snapshot" with
    | none => .error .errNotExist
    | some v => .ok v
  else
    let latest := pickLatest st.contents
    if latest.2 = "" then .error .errNotExist
    else
      match mapGet st.contents latest.2 with
      | none => .error (.pathErrorNotExist (filepathJoin st.path latest.2))
      | some v => .ok v

/-- A sequence of Store.Set calls. -/
def Store.runSets (st : Store) (ops : List (String × String)) : Store :=
  ops.foldl (fun a kv => a.set kv.1 kv.2) st

/-- A sequence of Store.StoreSnapshot calls, each with the Unix timestamp
observed at that call. -/
def Store.runSnapshots (st : Store) (ops : List (String × Int)) : Store :=
  ops.foldl (fun a dv => a.storeSnapshot dv.1 dv.2) st

/-- Shape of the file-mode store directory after a nonempty run of
StoreSnapshot calls with positive nondecreasing timestamps: the most recent
write sits at the end under its canonical snapshot file name, and every
earlier file carries a strictly smaller positive timestamp. -/
def fileSnapInv (contents : List (String × String)) (t : Int) (d : String) : Prop :=
  ∃ pre, contents = pre ++ [(snapName t, d)] ∧
    ∀ kv ∈ pre, ∃ u v, kv = (snapName u, v) ∧ 0 < u ∧ u < t

/-- The four job statuses named by the data model. -/
def validStatuses : List String := ["Queued", "Running", "Done", "Canceled"]

/-- Every stored job carries one of the four statuses. -/
def statusInv (s : FSMState) : Prop :=
  ∀ k job, mapGet s.printJobs k = some job → job.Status ∈ validStatuses

/-! ### Concrete states used as counterexamples and witnesses -/

def printerA : Printer := { ID := "p1", Company := "Creality", Model := "Ender 3" }

def stateC1 : FSMState := { printers := [("p1", printerA)], filaments := [], printJobs := [] }

def jobW3 : PrintJob :=
  { ID := "j1", PrinterID := "p1", FilamentID := "f1", Filepath := "x.gcode",
    PrintWeightInGrams := 1, Status := "Done" }

def stateW3 : FSMState := { printers := [], filaments := [], printJobs := [("j1", jobW3)] }

def cmdW3 : Command :=
  { ctype := "UPDATE_PRINT_JOB", printer := none, filament := none, printJob := none,
    jobID := "j1", newStatus := "Running" }

def filB : Filament :=
  { ID := "f1", FType := "PLA", Color := "red",
    TotalWeightInGrams := 1000, RemainingWeightInGrams := 1000 }

def oldJobB : PrintJob :=
  { ID := "j1", PrinterID := "p1", FilamentID := "f1", Filepath := "a.gcode",
    PrintWeightInGrams := 10, Status := "Done" }

def stateC2 : FSMState :=
  { printers := [("p1", printerA)], filaments := [("f1", filB)],
    printJobs := [("j1", oldJobB)] }

def newJobC2 : PrintJob :=
  { ID := "j1", PrinterID := "p1", FilamentID := "f1", Filepath := "b.gcode",
    PrintWeightInGrams := 10, Status := "Pending" }

def cmdC2 : Command :=
  { ctype := "ADD_PRINT_JOB", printer := none, filament := none,
    printJob := some newJobC2, jobID := "", newStatus := "" }

def stateW2 : FSMState :=
  { printers := [("p1", printerA)], filaments := [("f1", filB)], printJobs := [] }

def jobW2a : PrintJob :=
  { ID := "j9", PrinterID := "p1", FilamentID := "f1", Filepath := "c.gcode",
    PrintWeightInGrams := 2000, Status := "X" }

def jobW2b : PrintJob :=
  { ID := "j9", PrinterID := "p1", FilamentID := "f1", Filepath := "c.gcode",
    PrintWeightInGrams := 400, Status := "X" }

def cmdW2a : Command :=
  { ctype := "ADD_PRINT_JOB", printer := none, filament := none,
    printJob := some jobW2a, jobID := "", newStatus := "" }

def cmdW2b : Command :=
  { ctype := "ADD_PRINT_JOB", printer := none, filament := none,
    printJob := some jobW2b, jobID := "", newStatus := "" }

def jobW4run : PrintJob :=
  { ID := "j1", PrinterID := "p1", FilamentID := "f1", Filepath := "a.gcode",
    PrintWeightInGrams := 400, Status := "Running" }

def stateW4 : FSMState :=
  { printers := [("p1", printerA)], filaments := [("f1", filB)],
    printJobs := [("j1", jobW4run)] }

def cmdW4done : Command :=
  { ctype := "UPDATE_PRINT_JOB", printer := none, filament := none, printJob := none,
    jobID := "j1", newStatus := "Done" }

def cmdW4cancel : Command :=
  { ctype := "UPDATE_PRINT_JOB", printer := none, filament := none, printJob := none,
    jobID := "j1", newStatus := "Canceled" }

def jobW6 : PrintJob := { jobW3 with Status := "Running" }

def stateW6 : FSMState :=
  { printers := [("p1", printerA)],
    filaments := [("f1",
      { ID := "f1", FType := "PLA", Color := "red",
        TotalWeightInGrams := 100, RemainingWeightInGrams := 100 })],
    printJobs := [] }

def cmdW6 : Command :=
  { ctype := "ADD_PRINT_JOB", printer := none, filament := none,
    printJob := some jobW6, jobID := "", newStatus := "" }

def jobC9 : PrintJob :=
  { ID := "j1", PrinterID := "p1", FilamentID := "ghost", Filepath := "x",
    PrintWeightInGrams := 5, Status := "Running" }

def stateC9 : FSMState :=
  { printers := [], filaments := [], printJobs := [("j1", jobC9)] }

def cmdC9 : Command :=
  { ctype := "UPDATE_PRINT_JOB", printer := none, filament := none, printJob := none,
    jobID := "j1", newStatus := "Done" }

def cmdAddPrinterW : Command :=
  { ctype := "ADD_PRINTER", printer := some printerA, filament := none, printJob := none,
    jobID := "", newStatus := "" }

def cmdAddFilamentW : Command :=
  { ctype := "ADD_FILAMENT", printer := none, filament := some filB, printJob := none,
    jobID := "", newStatus := "" }

def cmdAddJobW : Command :=
  { ctype := "ADD_PRINT_JOB", printer := none, filament := none,
    printJob := some jobW2b, jobID := "", newStatus := "" }

theorem mapGet_mapSet_self {α : Type} (m : List (String × α)) (k : String) (v : α) :
    mapGet (mapSet m k v) k = some v := by
  induction m with
  | nil => simp [mapGet, mapSet]
  | cons hd tl ih =>
      by_cases h : hd.1 = k
      · simp [mapSet, h, mapGet]
      · simp [mapSet, h, mapGet, ih]

theorem mapGet_mapSet_ne {α : Type} (m : List (String × α)) (k k' : String) (v : α)
    (h : k' ≠ k) : mapGet (mapSet m k v) k' = mapGet m k' := by
  induction m with
  | nil => simp [mapGet, mapSet, Ne.symm h]
  | cons hd tl ih =>
      obtain ⟨k0, v0⟩ := hd
      by_cases hk : k0 = k
      · subst hk
        simp [mapSet, mapGet, Ne.symm h]
      · by_cases hk' : k0 = k'
        · subst hk'
          simp [mapSet, hk, mapGet]
        · simp [mapSet, hk, mapGet, hk', ih]

theorem availableWeight_foldl (printJobs : List (String × PrintJob))
    (filamentID : String) (init : Int) :
    printJobs.foldl
      (fun acc kv =>
        if kv.2.FilamentID = filamentID ∧ (kv.2.Status = "Queued" ∨ kv.2.Status = "Running")
        then acc - kv.2.PrintWeightInGrams else acc) init
      = init - reservedWeight printJobs filamentID := by
  induction printJobs generalizing init with
  | nil => simp [reservedWeight]
  | cons hd tl ih =>
      by_cases h : hd.2.FilamentID = filamentID ∧ (hd.2.Status = "Queued" ∨ hd.2.Status = "Running")
      · simp only [List.foldl_cons, reservedWeight, if_pos h, ih]
        ring
      · simp only [List.foldl_cons, reservedWeight, if_neg h, ih]
        ring

theorem availableWeight_eq (filament : Filament) (printJobs : List (String × PrintJob))
    (filamentID : String) :
    availableWeight filament printJobs filamentID
      = filament.RemainingWeightInGrams - reservedWeight printJobs filamentID :=
  availableWeight_foldl printJobs filamentID filament.RemainingWeightInGrams

/-! ### Decimal print/parse facts used by the store and transport proofs -/

theorem digitChar_toNat (d : Nat) (hd : d < 10) : (Char.ofNat (48 + d)).toNat = 48 + d := by
  interval_cases d <;> decide

theorem digitChar_isDigit (d : Nat) (hd : d < 10) : (Char.ofNat (48 + d)).isDigit = true := by
  interval_cases d <;> decide

theorem goNatDigits_ne_nil (n : Nat) : goNatDigits n ≠ [] := by
  unfold goNatDigits
  split
  · simp
  · simp

theorem mem_goNatDigits (n : Nat) :
    ∀ c ∈ goNatDigits n, ∃ d, d < 10 ∧ c = Char.ofNat (48 + d) := by
  induction n using goNatDigits.induct with
  | case1 n h =>
      intro c hc
      rw [goNatDigits, dif_pos h] at hc
      simp at hc
      exact ⟨n, h, hc⟩
  | case2 n h ih =>
      intro c hc
      rw [goNatDigits, dif_neg h] at hc
      rcases List.mem_append.mp hc with h1 | h2
      · exact ih c h1
      · simp at h2
        exact ⟨n % 10, Nat.mod_lt _ (by omega), h2⟩

theorem isDigit_of_mem_goNatDigits {n : Nat} {c : Char} (hc : c ∈ goNatDigits n) :
    c.isDigit = true := by
  obtain ⟨d, hd, rfl⟩ := mem_goNatDigits n c hc
  exact digitChar_isDigit d hd

theorem foldl_goNatDigits (n : Nat) :
    ∀ acc : Nat,
      (goNatDigits n).foldl (fun a c => a * 10 + (c.toNat - 48)) acc
        = acc * 10 ^ (goNatDigits n).length + n := by
  induction n using goNatDigits.induct with
  | case1 n h =>
      intro acc
      rw [goNatDigits, dif_pos h]
      simp only [List.foldl_cons, List.foldl_nil, List.length_cons, List.length_nil,
        digitChar_toNat n h, pow_one, Nat.zero_add, pow_succ, pow_zero]
      omega
  | case2 n h ih =>
      intro acc
      rw [goNatDigits, dif_neg h]
      rw [List.foldl_append, List.length_append, ih acc]
      have h10 : n % 10 < 10 := Nat.mod_lt _ (by omega)
      simp only [List.foldl_cons, List.foldl_nil, List.length_cons, List.length_nil,
        digitChar_toNat (n % 10) h10, Nat.zero_add, pow_succ]
      have hmul : acc * (10 ^ (goNatDigits (n / 10)).length * 10)
          = acc * 10 ^ (goNatDigits (n / 10)).length * 10 := by ring
      rw [hmul]
      generalize acc * 10 ^ (goNatDigits (n / 10)).length = Q
      omega

theorem digitChar_not_ws (d : Nat) (hd : d < 10) :
    (Char.ofNat (48 + d)).isWhitespace = false := by
  interval_cases d <;> decide

theorem digitChar_ne_dash (d : Nat) (hd : d < 10) : Char.ofNat (48 + d) ≠ '-' := by
  interval_cases d <;> decide

theorem digitChar_ne_plus (d : Nat) (hd : d < 10) : Char.ofNat (48 + d) ≠ '+' := by
  interval_cases d <;> decide

theorem takeWhile_eq_self_of_all {p : Char → Bool} :
    ∀ l : List Char, (∀ c ∈ l, p c = true) → l.takeWhile p = l := by
  intro l
  induction l with
  | nil => intro _; rfl
  | cons a t ih =>
      intro h
      rw [List.takeWhile_cons, if_pos]
      · rw [ih (fun c hc => h c (List.mem_cons_of_mem a hc))]
      · exact h a (List.mem_cons_self a t)

theorem goSscanfInt_mk_digits (n : Nat) :
    goSscanfInt (String.mk (goNatDigits n)) = some (n : Int) := by
  obtain ⟨c, rest, hl⟩ : ∃ c rest, goNatDigits n = c :: rest := by
    rcases h : goNatDigits n with _ | ⟨c, rest⟩
    · exact absurd h (goNatDigits_ne_nil n)
    · exact ⟨c, rest, rfl⟩
  obtain ⟨d, hd, hc⟩ := mem_goNatDigits n c (by rw [hl]; exact List.mem_cons_self _ _)
  have hws : c.isWhitespace = false := by rw [hc]; exact digitChar_not_ws d hd
  have hdash : c ≠ '-' := by rw [hc]; exact digitChar_ne_dash d hd
  have hplus : c ≠ '+' := by rw [hc]; exact digitChar_ne_plus d hd
  have hdigits : ∀ x ∈ c :: rest, x.isDigit = true := by
    intro x hx
    exact isDigit_of_mem_goNatDigits (hl ▸ hx)
  have h1 : List.dropWhile (fun c => c.isWhitespace) (goNatDigits n) = c :: rest := by
    rw [hl, List.dropWhile_cons, if_neg (by simp [hws])]
  have h2 : List.takeWhile (fun c => c.isDigit) (c :: rest) = c :: rest :=
    takeWhile_eq_self_of_all _ hdigits
  have hfold : (c :: rest).foldl (fun a x => a * 10 + (x.toNat - 48)) 0 = n := by
    rw [← hl, foldl_goNatDigits n 0]
    simp
  simp only [goSscanfInt, h1, List.head?_cons, List.tail_cons, Option.some.injEq]
  simp [hdash, hplus, h2, hfold]

theorem goSscanfInt_goIntToString (i : Int) :
    goSscanfInt (goIntToString i) = some i := by
  by_cases hneg : i < 0
  · have habs : ((i.natAbs : Int)) = -i := by omega
    obtain ⟨c, rest, hl⟩ : ∃ c rest, goNatDigits i.natAbs = c :: rest := by
      rcases h : goNatDigits i.natAbs with _ | ⟨c, rest⟩
      · exact absurd h (goNatDigits_ne_nil _)
      · exact ⟨c, rest, rfl⟩
    have hdigits : ∀ x ∈ goNatDigits i.natAbs, x.isDigit = true := by
      intro x hx
      exact isDigit_of_mem_goNatDigits hx
    have h1 : List.dropWhile (fun c => c.isWhitespace) ('-' :: goNatDigits i.natAbs)
        = '-' :: goNatDigits i.natAbs := by
      rw [List.dropWhile_cons, if_neg (by decide)]
    have h2 : List.takeWhile (fun c => c.isDigit) (goNatDigits i.natAbs)
        = goNatDigits i.natAbs := takeWhile_eq_self_of_all _ hdigits
    have h3 : (goNatDigits i.natAbs).isEmpty = false := by rw [hl]; rfl
    have hfold : (goNatDigits i.natAbs).foldl (fun a x => a * 10 + (x.toNat - 48)) 0
        = i.natAbs := by
      rw [foldl_goNatDigits _ 0]
      simp
    rw [goIntToString, if_pos hneg]
    simp only [goSscanfInt, h1, List.head?_cons, List.tail_cons]
    simp [h2, h3, hfold, habs]
  · rw [goIntToString, if_neg hneg]
    rw [goSscanfInt_mk_digits]
    congr 1
    omega

theorem goIntToString_injective (i j : Int) (h : goIntToString i = goIntToString j) :
    i = j := by
  have hi := goSscanfInt_goIntToString i
  have hj := goSscanfInt_goIntToString j
  rw [h] at hi
  rw [hi] at hj
  exact Option.some_injective _ hj

theorem goIntToString_ne_empty (i : Int) : (goIntToString i).data ≠ [] := by
  rw [goIntToString]
  split
  · simp
  · exact goNatDigits_ne_nil _

theorem snapName_data (t : Int) :
    (snapName t).data = "snapshot-".data ++ (goIntToString t).data :=
  String.data_append _ _

theorem parseSnapName_snapName (t : Int) : parseSnapName (snapName t) = some t := by
  have hlen : ("snapshot-".data : List Char).length = 9 := by decide
  have hgt : (snapName t).length > 9 := by
    show (snapName t).data.length > 9
    rw [snapName_data, List.length_append, hlen]
    have := goIntToString_ne_empty t
    cases h : (goIntToString t).data with
    | nil => exact absurd h this
    | cons a l => simp [h]
  rw [parseSnapName,
    if_pos ⟨hgt, by rw [snapName_data]; exact List.take_left' hlen⟩]
  rw [snapName_data, List.drop_left' hlen]
  rw [show String.mk (goIntToString t).data = goIntToString t from rfl]
  exact goSscanfInt_goIntToString t

theorem snapName_injective {u t : Int} (h : snapName u = snapName t) : u = t := by
  apply goIntToString_injective
  apply String.ext
  have hd : (snapName u).data = (snapName t).data := by rw [h]
  rw [snapName_data, snapName_data] at hd
  exact List.append_cancel_left hd

theorem snapName_ne_empty (t : Int) : snapName t ≠ "" := by
  intro h
  have : (snapName t).data = [] := by rw [h]
  rw [snapName_data] at this
  simp at this

/-- mapSet on a key absent from the list appends the new binding at the end. -/
theorem mapSet_eq_append {α : Type} (m : List (String × α)) (k : String) (v : α)
    (h : ∀ kv ∈ m, kv.1 ≠ k) : mapSet m k v = m ++ [(k, v)] := by
  induction m with
  | nil => rfl
  | cons hd tl ih =>
      rw [mapSet, if_neg (h hd (List.mem_cons_self hd tl))]
      rw [ih (fun kv hkv => h kv (List.mem_cons_of_mem hd hkv))]
      rfl

/-- mapSet on the key of the final binding replaces just that binding. -/
theorem mapSet_append_last {α : Type} (pre : List (String × α)) (k : String) (v v' : α)
    (h : ∀ kv ∈ pre, kv.1 ≠ k) :
    mapSet (pre ++ [(k, v)]) k v' = pre ++ [(k, v')] := by
  induction pre with
  | nil => simp [mapSet]
  | cons hd tl ih =>
      rw [List.cons_append, mapSet, if_neg (h hd (List.mem_cons_self hd tl))]
      rw [ih (fun kv hkv => h kv (List.mem_cons_of_mem hd hkv))]
      rfl

/-- Lookup of the final binding when its key is absent from the prefix. -/
theorem mapGet_append_last {α : Type} (pre : List (String × α)) (k : String) (v : α)
    (h : ∀ kv ∈ pre, kv.1 ≠ k) :
    mapGet (pre ++ [(k, v)]) k = some v := by
  induction pre with
  | nil => simp [mapGet]
  | cons hd tl ih =>
      rw [List.cons_append, mapGet, if_neg (h hd (List.mem_cons_self hd tl))]
      exact ih (fun kv hkv => h kv (List.mem_cons_of_mem hd hkv))

theorem Store.set_path (st : Store) (k v : String) : (st.set k v).path = st.path := by
  rw [Store.set]
  split <;> rfl

theorem Store.set_contents (st : Store) (k v : String) :
    (st.set k v).contents = mapSet st.contents k v := by
  rw [Store.set]
  split <;> rfl

theorem Store.storeSnapshot_path (st : Store) (d : String) (t : Int) :
    (st.storeSnapshot d t).path = st.path := by
  rw [Store.storeSnapshot]
  split <;> rfl

theorem Store.storeSnapshot_contents_mem (st : Store) (d : String) (t : Int)
    (h : st.path = "") :
    (st.storeSnapshot d t).contents = mapSet st.contents "snapshot" d := by
  rw [Store.storeSnapshot, if_pos h]

theorem Store.storeSnapshot_contents_file (st : Store) (d : String) (t : Int)
    (h : ¬ st.path = "") :
    (st.storeSnapshot d t).contents = mapSet st.contents (snapName t) d := by
  rw [Store.storeSnapshot, if_neg h]

theorem Store.runSets_cons (st : Store) (op : String × String) (ops : List (String × String)) :
    st.runSets (op :: ops) = (st.set op.1 op.2).runSets ops := rfl

theorem Store.runSnapshots_cons (st : Store) (op : String × Int) (ops : List (String × Int)) :
    st.runSnapshots (op :: ops) = (st.storeSnapshot op.1 op.2).runSnapshots ops := rfl

theorem Store.runSets_path (ops : List (String × String)) :
    ∀ st : Store, (st.runSets ops).path = st.path := by
  induction ops with
  | nil => intro st; rfl
  | cons op rest ih =>
      intro st
      rw [Store.runSets_cons, ih, Store.set_path]

theorem Store.runSnapshots_path (ops : List (String × Int)) :
    ∀ st : Store, (st.runSnapshots ops).path = st.path := by
  induction ops with
  | nil => intro st; rfl
  | cons op rest ih =>
      intro st
      rw [Store.runSnapshots_cons, ih, Store.storeSnapshot_path]

theorem Store.runSets_get_none (ops : List (String × String)) :
    ∀ (st : Store) (k : String),
      mapGet st.contents k = none → (∀ kv ∈ ops, kv.1 ≠ k) →
      mapGet (st.runSets ops).contents k = none := by
  induction ops with
  | nil => intro st k h _; exact h
  | cons op rest ih =>
      intro st k h hops
      rw [Store.runSets_cons]
      apply ih
      · rw [Store.set_contents]
        rw [mapGet_mapSet_ne _ _ _ _ (fun hh => hops op (List.mem_cons_self op rest) hh.symm)]
        exact h
      · exact fun kv hkv => hops kv (List.mem_cons_of_mem op hkv)

theorem Store.runSnapshots_mem_lookup (ops : List (String × Int)) :
    ∀ (st : Store) (d : String) (t : Int),
      st.path = "" → ops.getLast? = some (d, t) →
      mapGet (st.runSnapshots ops).contents "snapshot" = some d := by
  induction ops with
  | nil => intro st d t _ hlast; exact absurd hlast (by simp)
  | cons op rest ih =>
      intro st d t hpath hlast
      rw [Store.runSnapshots_cons]
      cases rest with
      | nil =>
          have hop : op = (d, t) := by
            simpa using hlast
          subst hop
          show mapGet (st.storeSnapshot d t).contents "snapshot" = some d
          rw [Store.storeSnapshot_contents_mem st d t hpath]
          exact mapGet_mapSet_self _ _ _
      | cons r rs =>
          apply ih _ d t
          · rw [Store.storeSnapshot_path]
            exact hpath
          · simpa using hlast

theorem fileSnapInv_step (c : List (String × String)) (t : Int) (d : String)
    (t' : Int) (d' : String) (h : fileSnapInv c t d) (hpos : 0 < t) (hle : t ≤ t') :
    fileSnapInv (mapSet c (snapName t') d') t' d' := by
  obtain ⟨pre, rfl, hpre⟩ := h
  rcases eq_or_lt_of_le hle with heq | hlt
  · subst heq
    refine ⟨pre, ?_, hpre⟩
    apply mapSet_append_last
    intro kv hkv
    obtain ⟨u, v, rfl, hu0, hut⟩ := hpre kv hkv
    exact fun hh => absurd (snapName_injective hh) (by omega)
  · have hnot : ∀ kv ∈ pre ++ [(snapName t, d)], kv.1 ≠ snapName t' := by
      intro kv hkv
      rcases List.mem_append.mp hkv with h1 | h2
      · obtain ⟨u, v, rfl, hu0, hut⟩ := hpre kv h1
        exact fun hh => absurd (snapName_injective hh) (by omega)
      · have : kv = (snapName t, d) := by simpa using h2
        subst this
        exact fun hh => absurd (snapName_injective hh) (by omega)
    rw [mapSet_eq_append _ _ _ hnot]
    refine ⟨pre ++ [(snapName t, d)], rfl, ?_⟩
    intro kv hkv
    rcases List.mem_append.mp hkv with h1 | h2
    · obtain ⟨u, v, rfl, hu0, hut⟩ := hpre kv h1
      exact ⟨u, v, rfl, hu0, by omega⟩
    · have : kv = (snapName t, d) := by simpa using h2
      subst this
      exact ⟨t, d, rfl, hpos, hlt⟩

theorem pickLatest_fold_lt (t : Int) (pre : List (String × String)) :
    ∀ acc : Int × String,
      (∀ kv ∈ pre, ∃ u v, kv = (snapName u, v) ∧ 0 < u ∧ u < t) →
      acc.1 < t →
      (pre.foldl pickLatestStep acc).1 < t := by
  induction pre with
  | nil => intro acc _ h; exact h
  | cons kv rest ih =>
      intro acc hpre hacc
      rw [List.foldl_cons]
      apply ih
      · exact fun kv' hkv' => hpre kv' (List.mem_cons_of_mem kv hkv')
      · obtain ⟨u, v, rfl, hu0, hut⟩ := hpre kv (List.mem_cons_self kv rest)
        simp only [pickLatestStep, parseSnapName_snapName]
        by_cases hcmp : u > acc.1
        · rw [if_pos hcmp]
          exact hut
        · rw [if_neg hcmp]
          exact hacc

theorem pickLatest_last (pre : List (String × String)) (t : Int) (d : String)
    (hpre : ∀ kv ∈ pre, ∃ u v, kv = (snapName u, v) ∧ 0 < u ∧ u < t) (hpos : 0 < t) :
    pickLatest (pre ++ [(snapName t, d)]) = (t, snapName t) := by
  rw [pickLatest, List.foldl_append, List.foldl_cons, List.foldl_nil]
  have h1 : (pre.foldl pickLatestStep ((0 : Int), "")).1 < t :=
    pickLatest_fold_lt t pre ((0 : Int), "") hpre hpos
  simp only [pickLatestStep, parseSnapName_snapName]
  rw [if_pos h1]

theorem loadSnapshot_file (st : Store) (hpath : ¬ st.path = "")
    (t : Int) (d : String)
    (h : fileSnapInv st.contents t d) (hpos : 0 < t) :
    st.loadSnapshot = .ok d := by
  obtain ⟨pre, hc, hpre⟩ := h
  rw [Store.loadSnapshot]
  rw [if_neg hpath]
  rw [hc]
  rw [show pickLatest (pre ++ [(snapName t, d)]) = (t, snapName t) from
    pickLatest_last pre t d hpre hpos]
  rw [if_neg (snapName_ne_empty t)]
  rw [mapGet_append_last pre _ d (fun kv hkv => by
    obtain ⟨u, v, rfl, hu0, hut⟩ := hpre kv hkv
    exact fun hh => absurd (snapName_injective hh) (by omega))]

theorem runSnapshots_file_aux (ops : List (String × Int)) :
    ∀ (st : Store) (t0 : Int) (d0 : String) (d : String) (t : Int),
      ¬ st.path = "" →
      fileSnapInv st.contents t0 d0 → 0 < t0 →
      (∀ op ∈ ops, t0 ≤ op.2) →
      List.Pairwise (fun a b => a.2 ≤ b.2) ops →
      ops.getLast? = some (d, t) →
      fileSnapInv (st.runSnapshots ops).contents t d ∧ 0 < t := by
  induction ops with
  | nil => intro st t0 d0 d t _ _ _ _ _ hlast; exact absurd hlast (by simp)
  | cons op rest ih =>
      intro st t0 d0 d t hpath hinv hpos hbound hpair hlast
      have hop2 : t0 ≤ op.2 := hbound op (List.mem_cons_self op rest)
      have hpos' : 0 < op.2 := lt_of_lt_of_le hpos hop2
      have hinv' : fileSnapInv (st.storeSnapshot op.1 op.2).contents op.2 op.1 := by
        rw [Store.storeSnapshot_contents_file st op.1 op.2 hpath]
        exact fileSnapInv_step st.contents t0 d0 op.2 op.1 hinv hpos hop2
      rw [Store.runSnapshots_cons]
      cases rest with
      | nil =>
          have hop : op = (d, t) := by simpa using hlast
          subst hop
          exact ⟨hinv', hpos'⟩
      | cons r rs =>
          apply ih (st.storeSnapshot op.1 op.2) op.2 op.1 d t
          · rw [Store.storeSnapshot_path]
            exact hpath
          · exact hinv'
          · exact hpos'
          · exact fun x hx => (List.pairwise_cons.mp hpair).1 x hx
          · exact (List.pairwise_cons.mp hpair).2
          · simpa using hlast

theorem validate_none_iff (current new : String) :
    ValidateStatusChange current new = none ↔
      ((current = "Queued" ∧ (new = "Running" ∨ new = "Canceled")) ∨
       (current = "Running" ∧ (new = "Done" ∨ new = "Canceled"))) := by
  rw [ValidateStatusChange]
  split_ifs with h1 h2 h3 h4 <;> simp_all <;> tauto

theorem validate_none_mem (current new : String)
    (h : ValidateStatusChange current new = none) : new ∈ validStatuses := by
  rcases (validate_none_iff current new).mp h with ⟨_, h2⟩ | ⟨_, h2⟩ <;>
    rcases h2 with h3 | h3 <;> simp [validStatuses, h3]

theorem statusInv_applyCmd (s : FSMState) (cmd : Command) (h : statusInv s) :
    statusInv (applyCmd s cmd).1 := by
  by_cases h1 : cmd.ctype = "ADD_PRINTER"
  · rw [applyCmd, if_pos h1]
    cases cmd.printer with
    | none => exact h
    | some p =>
        dsimp only
        exact fun k job hk => h k job hk
  · by_cases h2 : cmd.ctype = "ADD_FILAMENT"
    · rw [applyCmd, if_neg h1, if_pos h2]
      cases cmd.filament with
      | none => exact h
      | some fil =>
          dsimp only
          exact fun k job hk => h k job hk
    · by_cases h3 : cmd.ctype = "ADD_PRINT_JOB"
      · rw [applyCmd, if_neg h1, if_neg h2, if_pos h3]
        cases cmd.printJob with
        | none => exact h
        | some j =>
            dsimp only
            cases mapGet s.printers j.PrinterID with
            | none => exact h
            | some p =>
                dsimp only
                cases mapGet s.filaments j.FilamentID with
                | none => exact h
                | some fil =>
                    dsimp only
                    split
                    · exact h
                    · intro k job hk
                      dsimp only at hk
                      by_cases hkj : k = j.ID
                      · subst hkj
                        rw [mapGet_mapSet_self] at hk
                        cases hk
                        simp [validStatuses]
                      · rw [mapGet_mapSet_ne _ _ _ _ hkj] at hk
                        exact h k job hk
      · by_cases h4 : cmd.ctype = "UPDATE_PRINT_JOB"
        · rw [applyCmd, if_neg h1, if_neg h2, if_neg h3, if_pos h4]
          cases hjob : mapGet s.printJobs cmd.jobID with
          | none => exact h
          | some job =>
              dsimp only
              cases hval : ValidateStatusChange job.Status cmd.newStatus with
              | some msg => exact h
              | none =>
                  dsimp only
                  have hmem : cmd.newStatus ∈ validStatuses :=
                    validate_none_mem job.Status cmd.newStatus hval
                  have hinv1 : statusInv
                      { s with printJobs :=
                          mapSet s.printJobs cmd.jobID { job with Status := cmd.newStatus } } := by
                    intro k job' hk
                    dsimp only at hk
                    by_cases hkj : k = cmd.jobID
                    · subst hkj
                      rw [mapGet_mapSet_self] at hk
                      cases hk
                      exact hmem
                    · rw [mapGet_mapSet_ne _ _ _ _ hkj] at hk
                      exact h k job' hk
                  split
                  · cases mapGet s.filaments job.FilamentID with
                    | none => exact hinv1
                    | some fil =>
                        dsimp only
                        exact fun k job' hk => hinv1 k job' hk
                  · exact hinv1
        · rw [applyCmd, if_neg h1, if_neg h2, if_neg h3, if_neg h4]
          exact h

theorem statusInv_applyAll (cmds : List Command) :
    ∀ s : FSMState, statusInv s → statusInv (applyAll s cmds) := by
  induction cmds with
  | nil => intro s h; exact h
  | cons c rest ih =>
      intro s h
      exact ih (applyCmd s c).1 (statusInv_applyCmd s c h)

/-! ### Claims -/

/-- C1: the claim says Snapshot/Persist followed by Restore reproduces the
three entity maps by content for every state.  The code fails at any state
with at least one entity: fsmSnapshot's fields are all unexported, so
Persist writes the empty JSON object and Restore decodes it back to empty
maps.  At a state holding one printer, the round trip returns the empty
state and the printer is lost. -/
theorem C1_persist_restore_loses_entities :
    FSMState.restore stateC1 ((FSMState.snapshot stateC1).persist)
        = Except.ok { printers := [], filaments := [], printJobs := [] }
    ∧ mapGet stateC1.printers "p1" = some printerA
    ∧ mapGet ({ printers := [], filaments := [], printJobs := [] } : FSMState).printers "p1"
        = none
    ∧ ¬ mapEquiv ([] : List (String × Printer)) stateC1.printers := by
  refine ⟨rfl, by decide, rfl, ?_⟩
  intro hcontra
  have := hcontra "p1"
  simp [stateC1, mapGet] at this

/-- C3: transition validation accepts exactly the four pairs Queued→Running,
Queued→Canceled, Running→Done, Running→Canceled (over arbitrary status
strings), and whenever validation rejects, Apply on UPDATE_PRINT_JOB returns
the badTransition error and leaves the whole state unchanged. -/
theorem C3_status_transition_closure :
    (∀ current new, ValidateStatusChange current new = none ↔
        ((current = "Queued" ∧ (new = "Running" ∨ new = "Canceled")) ∨
         (current = "Running" ∧ (new = "Done" ∨ new = "Canceled"))))
    ∧ (∀ (s : FSMState) (cmd : Command) (job : PrintJob) (msg : String),
        cmd.ctype = "UPDATE_PRINT_JOB" →
        mapGet s.printJobs cmd.jobID = some job →
        ValidateStatusChange job.Status cmd.newStatus = some msg →
        applyCmd s cmd = (s, some (FsmError.badTransition msg))) := by
  refine ⟨validate_none_iff, ?_⟩
  intro s cmd job msg hc hjob hval
  rw [applyCmd, if_neg (by simp [hc]), if_neg (by simp [hc]), if_neg (by simp [hc]),
    if_pos hc, hjob]
  dsimp only
  rw [hval]

/-- Witness for C3 at the terminal status Done and at a stored job. -/
theorem C3_witness :
    (ValidateStatusChange "Done" "Running" = none ↔
        (("Done" = "Queued" ∧ ("Running" = "Running" ∨ "Running" = "Canceled")) ∨
         ("Done" = "Running" ∧ ("Running" = "Done" ∨ "Running" = "Canceled"))))
    ∧ applyCmd stateW3 cmdW3
        = (stateW3, some (FsmError.badTransition "invalid status transition")) :=
  ⟨C3_status_transition_closure.1 "Done" "Running",
   C3_status_transition_closure.2 stateW3 cmdW3 jobW3 "invalid status transition"
     rfl (by decide) (by decide)⟩

/-- C5: ADD_PRINT_JOB with an unknown printer id fails with the
printer-does-not-exist error and leaves the state unchanged; with a known
printer but unknown filament id it fails with the filament-does-not-exist
error and leaves the state unchanged; consequently a successful insertion
implies both parents existed in the pre-state. -/
theorem C5_addPrintJob_unknown_parent (s : FSMState) (cmd : Command) (j : PrintJob)
    (hc : cmd.ctype = "ADD_PRINT_JOB") (hj : cmd.printJob = some j) :
    (mapGet s.printers j.PrinterID = none →
        applyCmd s cmd = (s, some (FsmError.printerNotFound j.PrinterID)))
    ∧ (∀ p, mapGet s.printers j.PrinterID = some p →
        mapGet s.filaments j.FilamentID = none →
        applyCmd s cmd = (s, some (FsmError.filamentNotFound j.FilamentID)))
    ∧ ((applyCmd s cmd).2 = none →
        (mapGet s.printers j.PrinterID).isSome ∧ (mapGet s.filaments j.FilamentID).isSome) := by
  have H1 : mapGet s.printers j.PrinterID = none →
      applyCmd s cmd = (s, some (FsmError.printerNotFound j.PrinterID)) := by
    intro hp
    rw [applyCmd, if_neg (by simp [hc]), if_neg (by simp [hc]), if_pos hc, hj]
    dsimp only
    rw [hp]
  have H2 : ∀ p, mapGet s.printers j.PrinterID = some p →
      mapGet s.filaments j.FilamentID = none →
      applyCmd s cmd = (s, some (FsmError.filamentNotFound j.FilamentID)) := by
    intro p hp hf
    rw [applyCmd, if_neg (by simp [hc]), if_neg (by simp [hc]), if_pos hc, hj]
    dsimp only
    rw [hp]
    dsimp only
    rw [hf]
  refine ⟨H1, H2, ?_⟩
  intro hok
  rcases hpp : mapGet s.printers j.PrinterID with _ | p
  · rw [H1 hpp] at hok
    simp at hok
  · rcases hff : mapGet s.filaments j.FilamentID with _ | fil
    · rw [H2 p hpp hff] at hok
      simp at hok
    · exact ⟨rfl, rfl⟩

/-- Witness for C5: unknown printer, then unknown filament, at concrete
one-entry states. -/
theorem C5_witness :
    applyCmd { printers := [], filaments := [], printJobs := [] }
        { ctype := "ADD_PRINT_JOB", printer := none, filament := none,
          printJob := some jobW3, jobID := "", newStatus := "" }
      = ({ printers := [], filaments := [], printJobs := [] },
          some (FsmError.printerNotFound "p1")) :=
  (C5_addPrintJob_unknown_parent
    { printers := [], filaments := [], printJobs := [] }
    { ctype := "ADD_PRINT_JOB", printer := none, filament := none,
      printJob := some jobW3, jobID := "", newStatus := "" }
    jobW3 rfl rfl).1 (by decide)

/-- C6: whenever ADD_PRINT_JOB succeeds, the stored job is the submitted one
with its status forced to Queued, whatever status the payload carried. -/
theorem C6_addPrintJob_forces_queued (s : FSMState) (cmd : Command) (j : PrintJob)
    (s' : FSMState) (hc : cmd.ctype = "ADD_PRINT_JOB") (hj : cmd.printJob = some j)
    (hok : applyCmd s cmd = (s', none)) :
    mapGet s'.printJobs j.ID = some { j with Status := "Queued" } := by
  rw [applyCmd, if_neg (by simp [hc]), if_neg (by simp [hc]), if_pos hc, hj] at hok
  dsimp only at hok
  rcases hpp : mapGet s.printers j.PrinterID with _ | p
  · rw [hpp] at hok
    simp at hok
  · rw [hpp] at hok
    dsimp only at hok
    rcases hff : mapGet s.filaments j.FilamentID with _ | fil
    · rw [hff] at hok
      simp at hok
    · rw [hff] at hok
      dsimp only at hok
      by_cases hcap : j.PrintWeightInGrams > availableWeight fil s.printJobs j.FilamentID
      · rw [if_pos hcap] at hok
        simp at hok
      · rw [if_neg hcap] at hok
        have hs' : { s with printJobs := mapSet s.printJobs j.ID { j with Status := "Queued" } }
            = s' := congrArg Prod.fst hok
        rw [← hs']
        exact mapGet_mapSet_self _ _ _

/-- Witness for C6: a payload arriving with status Running is stored as
Queued. -/
theorem C6_witness :
    mapGet (applyCmd stateW6 cmdW6).1.printJobs "j1"
      = some { jobW6 with Status := "Queued" } := by
  have h := C6_addPrintJob_forces_queued stateW6 cmdW6 jobW6
    (applyCmd stateW6 cmdW6).1 rfl rfl (by decide)
  exact h

/-- C2 counterexample: the claim states that an accepted ADD_PRINT_JOB
leaves the status of every previously inserted job unchanged.  When the new
job reuses a stored job's id, the map assignment overwrites the stored job:
here a stored Done job with id j1 is replaced by the fresh Queued job, so
the previously inserted job j1 did not keep its status. -/
theorem C2_counterexample :
    (applyCmd stateC2 cmdC2).2 = none
    ∧ mapGet stateC2.printJobs "j1" = some oldJobB
    ∧ oldJobB.Status = "Done"
    ∧ mapGet (applyCmd stateC2 cmdC2).1.printJobs "j1"
        = some { newJobC2 with Status := "Queued" } := by
  refine ⟨by decide, by decide, rfl, by decide⟩

/-- C2 (amended): with both parents present, ADD_PRINT_JOB compares the
requested weight against the filament's remaining weight minus the summed
weights of the stored Queued/Running jobs on that filament (including a
stored job with the same id, since the new job is not yet stored); on excess
it fails with the insufficient-capacity error whose message carries the
available and the requested amounts and the state is unchanged; otherwise
the job is stored with status Queued and every stored job with a different
id is untouched (a stored job with the same id is overwritten). -/
theorem C2_amended_capacity_check (s : FSMState) (cmd : Command) (j : PrintJob)
    (p : Printer) (fil : Filament)
    (hc : cmd.ctype = "ADD_PRINT_JOB") (hj : cmd.printJob = some j)
    (hp : mapGet s.printers j.PrinterID = some p)
    (hf : mapGet s.filaments j.FilamentID = some fil) :
    (j.PrintWeightInGrams >
        fil.RemainingWeightInGrams - reservedWeight s.printJobs j.FilamentID →
      applyCmd s cmd = (s, some (FsmError.insufficientFilament
          (fil.RemainingWeightInGrams - reservedWeight s.printJobs j.FilamentID)
          j.PrintWeightInGrams))
      ∧ renderError (FsmError.insufficientFilament
          (fil.RemainingWeightInGrams - reservedWeight s.printJobs j.FilamentID)
          j.PrintWeightInGrams)
        = "not enough filament remaining. Available: "
            ++ goIntToString
                (fil.RemainingWeightInGrams - reservedWeight s.printJobs j.FilamentID)
            ++ " g, Required: " ++ goIntToString j.PrintWeightInGrams ++ " g")
    ∧ (j.PrintWeightInGrams ≤
        fil.RemainingWeightInGrams - reservedWeight s.printJobs j.FilamentID →
      applyCmd s cmd
        = ({ s with printJobs := mapSet s.printJobs j.ID { j with Status := "Queued" } },
            none)
      ∧ ∀ k, k ≠ j.ID →
          mapGet (applyCmd s cmd).1.printJobs k = mapGet s.printJobs k) := by
  constructor
  · intro hgt
    have hgt' : j.PrintWeightInGrams > availableWeight fil s.printJobs j.FilamentID := by
      rw [availableWeight_eq]
      exact hgt
    constructor
    · rw [applyCmd, if_neg (by simp [hc]), if_neg (by simp [hc]), if_pos hc, hj]
      dsimp only
      rw [hp]
      dsimp only
      rw [hf]
      dsimp only
      rw [if_pos hgt', availableWeight_eq]
    · rfl
  · intro hle
    have hle' : ¬ (j.PrintWeightInGrams > availableWeight fil s.printJobs j.FilamentID) := by
      rw [availableWeight_eq]
      omega
    have happ : applyCmd s cmd
        = ({ s with printJobs := mapSet s.printJobs j.ID { j with Status := "Queued" } },
            none) := by
      rw [applyCmd, if_neg (by simp [hc]), if_neg (by simp [hc]), if_pos hc, hj]
      dsimp only
      rw [hp]
      dsimp only
      rw [hf]
      dsimp only
      rw [if_neg hle']
    refine ⟨happ, ?_⟩
    intro k hk
    rw [happ]
    exact mapGet_mapSet_ne _ _ _ _ hk

/-- Witness for C2 (amended): a 2000 g request against 1000 g available is
rejected with the state unchanged; a 400 g request is stored as Queued. -/
theorem C2_witness :
    applyCmd stateW2 cmdW2a = (stateW2, some (FsmError.insufficientFilament 1000 2000))
    ∧ applyCmd stateW2 cmdW2b
        = ({ stateW2 with printJobs :=
                            mapSet stateW2.printJobs "j9" { jobW2b with Status := "Queued" } },
            none) := by
  constructor
  · have h := ((C2_amended_capacity_check stateW2 cmdW2a jobW2a
      printerA filB rfl rfl (by decide) (by decide)).1 (by decide)).1
    exact h.trans (by decide)
  · have h := ((C2_amended_capacity_check stateW2 cmdW2b jobW2b
      printerA filB rfl rfl (by decide) (by decide)).2 (by decide)).1
    exact h.trans (by decide)

/-- C4: a Running job whose filament exists moves to Done with that
filament's remaining weight set to max(remaining − requested, 0), every
other filament untouched; an UPDATE_PRINT_JOB that is not a Running→Done
transition of a stored job leaves the filament map entirely unchanged. -/
theorem C4_running_done_decrements_filament :
    (∀ (s : FSMState) (cmd : Command) (job : PrintJob) (fil : Filament),
        cmd.ctype = "UPDATE_PRINT_JOB" →
        mapGet s.printJobs cmd.jobID = some job →
        job.Status = "Running" → cmd.newStatus = "Done" →
        mapGet s.filaments job.FilamentID = some fil →
        applyCmd s cmd
          = ({ s with
                printJobs := mapSet s.printJobs cmd.jobID { job with Status := "Done" },
                filaments := mapSet s.filaments job.FilamentID
                  { fil with RemainingWeightInGrams :=
                              max (fil.RemainingWeightInGrams - job.PrintWeightInGrams) 0 } },
              none)
          ∧ ∀ k, k ≠ job.FilamentID →
              mapGet (applyCmd s cmd).1.filaments k = mapGet s.filaments k)
    ∧ (∀ (s : FSMState) (cmd : Command),
        cmd.ctype = "UPDATE_PRINT_JOB" →
        (∀ job, mapGet s.printJobs cmd.jobID = some job →
            ¬(job.Status = "Running" ∧ cmd.newStatus = "Done")) →
        (applyCmd s cmd).1.filaments = s.filaments) := by
  constructor
  · intro s cmd job fil hc hjob hrun hdone hf
    have hval : ValidateStatusChange job.Status cmd.newStatus = none := by
      rw [hrun, hdone]
      decide
    have hclamp : (if fil.RemainingWeightInGrams - job.PrintWeightInGrams < 0 then 0
          else fil.RemainingWeightInGrams - job.PrintWeightInGrams)
        = max (fil.RemainingWeightInGrams - job.PrintWeightInGrams) 0 := by
      rw [max_def]
      split_ifs <;> omega
    have happ : applyCmd s cmd
        = ({ s with
              printJobs := mapSet s.printJobs cmd.jobID { job with Status := "Done" },
              filaments := mapSet s.filaments job.FilamentID
                { fil with RemainingWeightInGrams :=
                            max (fil.RemainingWeightInGrams - job.PrintWeightInGrams) 0 } },
            none) := by
      rw [applyCmd, if_neg (by simp [hc]), if_neg (by simp [hc]), if_neg (by simp [hc]),
        if_pos hc, hjob]
      dsimp only
      rw [hval]
      dsimp only
      rw [if_pos ⟨hrun, hdone⟩]
      rw [hf]
      dsimp only
      rw [hclamp, hdone]
    refine ⟨happ, ?_⟩
    intro k hk
    rw [happ]
    exact mapGet_mapSet_ne _ _ _ _ hk
  · intro s cmd hc hnot
    rw [applyCmd, if_neg (by simp [hc]), if_neg (by simp [hc]), if_neg (by simp [hc]),
      if_pos hc]
    cases hjob : mapGet s.printJobs cmd.jobID with
    | none => rfl
    | some job =>
        dsimp only
        cases hval : ValidateStatusChange job.Status cmd.newStatus with
        | some msg => rfl
        | none =>
            dsimp only
            rw [if_neg (hnot job hjob)]

/-- Witness for C4: a Running 400 g job against a 1000 g filament completes
and the filament reads 600 g; afterwards a Queued job's move to Running does
not touch the filament map. -/
theorem C4_witness :
    applyCmd stateW4 cmdW4done
      = ({ printers := [("p1", printerA)],
            filaments := [("f1", { filB with RemainingWeightInGrams := 600 })],
            printJobs := [("j1", { jobW4run with Status := "Done" })] }, none)
    ∧ (applyCmd stateW3 cmdW4cancel).1.filaments = stateW3.filaments := by
  constructor
  · have h := (C4_running_done_decrements_filament.1 stateW4 cmdW4done jobW4run
      filB rfl (by decide) rfl rfl (by decide)).1
    exact h.trans (by decide)
  · exact C4_running_done_decrements_filament.2 stateW3 cmdW4cancel
      rfl
      (by
        intro job hjob
        have hj : jobW3 = job := by
          have h' := hjob
          simp [stateW3, mapGet, cmdW4cancel] at h'
          exact h'
        rw [← hj]
        intro hcontra
        simp [jobW3] at hcontra)

/-- C9: the Running→Done error branch is not atomic — at a state whose
Running job names a missing filament, Apply returns the
filament-does-not-exist error although the job's status has already been
mutated to Done; and under the referential-integrity precondition (every
stored job's filament id resolves), that error branch of UPDATE_PRINT_JOB is
unreachable. -/
theorem C9_done_error_branch_not_atomic :
    ((applyCmd stateC9 cmdC9).2 = some (FsmError.filamentNotFound "ghost")
      ∧ mapGet (applyCmd stateC9 cmdC9).1.printJobs "j1"
          = some { jobC9 with Status := "Done" })
    ∧ (∀ (s : FSMState) (cmd : Command) (fid : String),
        cmd.ctype = "UPDATE_PRINT_JOB" →
        (∀ k job, mapGet s.printJobs k = some job →
            (mapGet s.filaments job.FilamentID).isSome) →
        (applyCmd s cmd).2 ≠ some (FsmError.filamentNotFound fid)) := by
  constructor
  · exact ⟨by decide, by decide⟩
  · intro s cmd fid hc hinv
    rw [applyCmd, if_neg (by simp [hc]), if_neg (by simp [hc]), if_neg (by simp [hc]),
      if_pos hc]
    cases hjob : mapGet s.printJobs cmd.jobID with
    | none => simp
    | some job =>
        dsimp only
        cases hval : ValidateStatusChange job.Status cmd.newStatus with
        | some msg => simp
        | none =>
            dsimp only
            split
            · have hsome := hinv cmd.jobID job hjob
              rcases hfil : mapGet s.filaments job.FilamentID with _ | fil
              · rw [hfil] at hsome
                simp at hsome
              · simp
            · simp

/-- Witness for C9's unreachability part at the empty job map. -/
theorem C9_witness :
    (applyCmd NewFSM cmdC9).2 ≠ some (FsmError.filamentNotFound "ghost") :=
  C9_done_error_branch_not_atomic.2 NewFSM cmdC9 "ghost" rfl
    (fun k job hk => by simp [NewFSM, mapGet] at hk)

/-- C7 counterexample: the claim says that on a non-leader node with a known
leader address the request is always issued to the resolved address.  With
leader address "abcd" the node is not leader, a leader address is known, yet
ForwardToLeader returns the port-parse error before any network call because
the last four characters are not an integer. -/
theorem C7_counterexample :
    ForwardToLeader false "abcd" "POST" "/api/v1/printers" = ForwardResult.portParseError
    ∧ "abcd" ≠ "" := by
  exact ⟨by decide, by decide⟩

/-- C7 (amended): a node that believes itself leader gets the handle-locally
sentinel with no network call; a non-leader with no known leader address
fails fast with no-leader-available; a non-leader whose known leader address
is at least four characters long and whose last four characters scan as an
integer issues the request to http://localhost:(8000 + port − 7000) plus the
path.  (A shorter address panics on the slice, and a failed scan returns a
parse error, both before any network call.) -/
theorem C7_amended_forwarding (isLeader : Bool) (leaderAddr method path : String) :
    (isLeader = true →
        ForwardToLeader isLeader leaderAddr method path = ForwardResult.handleLocally)
    ∧ (isLeader = false → leaderAddr = "" →
        ForwardToLeader isLeader leaderAddr method path = ForwardResult.noLeader)
    ∧ (∀ port : Int, isLeader = false → leaderAddr ≠ "" → ¬ leaderAddr.length < 4 →
        goSscanfInt (leaderAddr.drop (leaderAddr.length - 4)) = some port →
        ForwardToLeader isLeader leaderAddr method path
          = ForwardResult.request method
              ("http://localhost:" ++ goIntToString (8000 + (port - 7000)) ++ path)) := by
  refine ⟨?_, ?_, ?_⟩
  · intro h
    subst h
    rfl
  · intro h1 h2
    subst h1
    subst h2
    rfl
  · intro port h1 h2 h3 h4
    subst h1
    rw [ForwardToLeader]
    rw [if_neg (by simp)]
    rw [if_neg h2]
    rw [if_neg h3]
    rw [h4]

/-- Witness for C7 at a leader, at an unknown leader, and at the
conventional address localhost:7001 (raft port 7001 maps to HTTP port
8001). -/
theorem C7_witness :
    ForwardToLeader true "localhost:7001" "POST" "/join" = ForwardResult.handleLocally
    ∧ ForwardToLeader false "" "POST" "/join" = ForwardResult.noLeader
    ∧ ForwardToLeader false "localhost:7001" "POST" "/join"
        = ForwardResult.request "POST" "http://localhost:8001/join" := by
  refine ⟨(C7_amended_forwarding true "localhost:7001" "POST" "/join").1 rfl,
    (C7_amended_forwarding false "" "POST" "/join").2.1 rfl rfl, ?_⟩
  have h := (C7_amended_forwarding false "localhost:7001" "POST" "/join").2.2 7001 rfl
    (by decide) (by decide) (by decide)
  refine h.trans ?_
  have hnum : (8000 + (7001 - 7000) : Int) = 8001 := by norm_num
  rw [hnum]
  have hstr : goIntToString 8001 = "8001" := by
    rw [goIntToString, if_neg (by norm_num)]
    rw [show ((8001 : Int).toNat) = 8001 from rfl]
    rw [goNatDigits, dif_neg (by norm_num)]
    rw [show ((8001 : Nat) / 10) = 800 from rfl, show ((8001 : Nat) % 10) = 1 from rfl]
    rw [goNatDigits, dif_neg (by norm_num)]
    rw [show ((800 : Nat) / 10) = 80 from rfl, show ((800 : Nat) % 10) = 0 from rfl]
    rw [goNatDigits, dif_neg (by norm_num)]
    rw [show ((80 : Nat) / 10) = 8 from rfl, show ((80 : Nat) % 10) = 0 from rfl]
    rw [goNatDigits, dif_pos (by norm_num)]
    decide
  rw [hstr]
  decide

/-- C8: the two backing modes agree from the caller's perspective — a Get on
a key that no Set ever wrote fails as not-found in both modes (the
os.ErrNotExist sentinel in memory, the ENOENT PathError on disk, both
classified not-found by os.IsNotExist), and after any nonempty sequence of
StoreSnapshot calls whose Unix timestamps are positive and nondecreasing
(a monotone wall clock), LoadSnapshot returns the data of the most recent
call in both modes. -/
theorem C8_store_modes_equivalent :
    (∀ (path : String) (ops : List (String × String)) (k : String),
        path ≠ "" →
        (∀ kv ∈ ops, kv.1 ≠ k) →
        ((NewStore "").runSets ops).get k = Except.error GoError.errNotExist
        ∧ ((NewStore path).runSets ops).get k
            = Except.error (GoError.pathErrorNotExist (filepathJoin path k))
        ∧ os_IsNotExist GoError.errNotExist = true
        ∧ os_IsNotExist (GoError.pathErrorNotExist (filepathJoin path k)) = true)
    ∧ (∀ (path : String) (ops : List (String × Int)) (d : String) (t : Int),
        path ≠ "" →
        (∀ op ∈ ops, 0 < op.2) →
        List.Pairwise (fun a b => a.2 ≤ b.2) ops →
        ops.getLast? = some (d, t) →
        ((NewStore "").runSnapshots ops).loadSnapshot = Except.ok d
        ∧ ((NewStore path).runSnapshots ops).loadSnapshot = Except.ok d) := by
  constructor
  · intro path ops k hpath hops
    have hmem : mapGet ((NewStore "").runSets ops).contents k = none :=
      Store.runSets_get_none ops (NewStore "") k rfl hops
    have hfile : mapGet ((NewStore path).runSets ops).contents k = none :=
      Store.runSets_get_none ops (NewStore path) k rfl hops
    refine ⟨?_, ?_, rfl, rfl⟩
    · rw [Store.get, if_pos (by rw [Store.runSets_path]; rfl), hmem]
    · rw [Store.get, if_neg (by rw [Store.runSets_path]; exact hpath), hfile,
        Store.runSets_path]
      rfl
  · intro path ops d t hpath hpos hpair hlast
    constructor
    · rw [Store.loadSnapshot, if_pos (by rw [Store.runSnapshots_path]; rfl),
        Store.runSnapshots_mem_lookup ops (NewStore "") d t rfl hlast]
    · cases ops with
      | nil => exact absurd hlast (by simp)
      | cons op rest =>
          have h1 : ¬ (NewStore path).path = "" := hpath
          have h1' : ¬ ((NewStore path).storeSnapshot op.1 op.2).path = "" := by
            rw [Store.storeSnapshot_path]
            exact h1
          have hinv1 : fileSnapInv ((NewStore path).storeSnapshot op.1 op.2).contents
              op.2 op.1 := by
            rw [Store.storeSnapshot_contents_file _ _ _ h1]
            exact ⟨[], rfl, by simp⟩
          have hpos1 : 0 < op.2 := hpos op (List.mem_cons_self op rest)
          rw [Store.runSnapshots_cons]
          cases rest with
          | nil =>
              have hop : op = (d, t) := by simpa using hlast
              subst hop
              exact loadSnapshot_file _ h1' t d hinv1 hpos1
          | cons r rs =>
              have haux := runSnapshots_file_aux (r :: rs)
                ((NewStore path).storeSnapshot op.1 op.2) op.2 op.1 d t h1' hinv1 hpos1
                (fun x hx => (List.pairwise_cons.mp hpair).1 x hx)
                (List.pairwise_cons.mp hpair).2
                (by simpa using hlast)
              exact loadSnapshot_file _
                (by rw [Store.runSnapshots_path]; exact h1') t d haux.1 haux.2

/-- Witness for C8: one Set of key a, then Get of the never-set key b fails
not-found in both modes; two snapshots at seconds 5 and 7 load the second in
both modes. -/
theorem C8_witness :
    (((NewStore "").runSets [("a", "1")]).get "b" = Except.error GoError.errNotExist
      ∧ ((NewStore "/data").runSets [("a", "1")]).get "b"
          = Except.error (GoError.pathErrorNotExist (filepathJoin "/data" "b"))
      ∧ os_IsNotExist GoError.errNotExist = true
      ∧ os_IsNotExist (GoError.pathErrorNotExist (filepathJoin "/data" "b")) = true)
    ∧ (((NewStore "").runSnapshots [("s1", 5), ("s2", 7)]).loadSnapshot = Except.ok "s2"
      ∧ ((NewStore "/data").runSnapshots [("s1", 5), ("s2", 7)]).loadSnapshot
          = Except.ok "s2") :=
  ⟨C8_store_modes_equivalent.1 "/data" [("a", "1")] "b" (by decide) (by decide),
   C8_store_modes_equivalent.2 "/data" [("s1", 5), ("s2", 7)] "s2" 7 (by decide)
     (by decide) (by decide) (by decide)⟩

/-- C10: starting from the empty FSM, whatever commands are applied, every
stored job's status is one of Queued, Running, Done, Canceled — insertions
force Queued and updates only write validator-approved statuses. -/
theorem C10_status_always_valid (cmds : List Command) (k : String) (job : PrintJob)
    (h : mapGet (applyAll NewFSM cmds).printJobs k = some job) :
    job.Status ∈ validStatuses := by
  have hinv : statusInv (applyAll NewFSM cmds) :=
    statusInv_applyAll cmds NewFSM (fun k' job' hk' => by simp [NewFSM, mapGet] at hk')
  exact hinv k job h

/-- Witness for C10 after adding a printer, a filament and a job. -/
theorem C10_witness :
    ({ jobW2b with Status := "Queued" } : PrintJob).Status ∈ validStatuses :=
  C10_status_always_valid [cmdAddPrinterW, cmdAddFilamentW, cmdAddJobW] "j9"
    { jobW2b with Status := "Queued" } (by decide)

end Raft3D

